import Mathlib

/-!
Verification development for the zustand-x store factory.

The embedding covers:
  - a JS-like value model and plain-object model (association lists);
  - the middleware composition phase of createStore (devtools and persist
    wrapping of the state initializer);
  - the four accessor generators (getters, actions, hook selectors,
    tracked-hook selectors) and the composite API assembly;
  - the storeFactory extension wrapper (extendSelectors / extendActions).

`generateStateTrackedHooksSelectors`, `createStore` and `storeFactory` are
embedded from the repository source.  The remaining accessor generators and
the extendSelectors / extendActions utilities are not part of the provided
sources; they are modelled from the specification (their doc comments say
so explicitly).
-/

namespace ZustandX

/-- JavaScript-like values: primitives plus plain objects given as
association lists of string keys.  Structural equality of `JSVal` is the
deep-equality relation of the specification. -/
inductive JSVal where
  | undef : JSVal
  | null : JSVal
  | bool : Bool → JSVal
  | num : Int → JSVal
  | str : String → JSVal
  | obj : List (String × JSVal) → JSVal

/-- A JS plain object whose property values live in `α` (for state objects
`α = JSVal`; accessor sub-records store functions, so they are `JSObj` of a
function type). -/
def JSObj (α : Type) : Type := List (String × α)

/-- `Object.keys o`: the property names of `o`, in insertion order. -/
def objKeys {α : Type} (o : JSObj α) : List String :=
  o.map Prod.fst

/-- Property lookup, `o[k]`: the value at the first entry named `k`
(JS objects have unique keys, so first-match is exact). -/
def lookupRec {α : Type} : JSObj α → String → Option α
  | [], _ => none
  | p :: rest, k => if p.1 = k then some p.2 else lookupRec rest k

/-- Property write with JS object-spread semantics: an existing key keeps
its position and gets the new value; a fresh key is appended at the end. -/
def setField {α : Type} : JSObj α → String → α → JSObj α
  | [], k, v => [(k, v)]
  | p :: rest, k, v =>
      if p.1 = k then (k, v) :: rest else p :: setField rest k v

/-- Shallow merge with JS spread semantics: the result of
spreading `patch` over `o`. -/
def mergeRecord {α : Type} (o patch : JSObj α) : JSObj α :=
  patch.foldl (fun acc p => setField acc p.1 p.2) o

abbrev Obj : Type := JSObj JSVal

/-- `o[k]` as evaluated by JS: `undefined` when the key is missing. -/
def jsIndex (o : Obj) (k : String) : JSVal :=
  (lookupRec o k).getD JSVal.undef

/-- Devtools middleware options (`Partial DevtoolsOptions` plus the
`enabled` flag zustand-x adds).  `none` models an absent / undefined JS
property. -/
structure DevtoolsOptions where
  enabled : Option Bool := none
  name : Option String := none
deriving DecidableEq

/-- Persist middleware options (`Partial PersistOptions` plus `enabled`). -/
structure PersistOptions where
  enabled : Option Bool := none
  name : Option String := none
deriving DecidableEq

/-- The `TCreateStoreOptions` record of createStore. -/
structure TCreateStoreOptions where
  devtools : Option DevtoolsOptions := none
  persist : Option PersistOptions := none
deriving DecidableEq

/-- JS truthiness of `options.devtools?.enabled`. -/
def devtoolsOn (options : TCreateStoreOptions) : Bool :=
  match options.devtools with
  | none => false
  | some d => d.enabled.getD false

/-- JS truthiness of `options.persist?.enabled`. -/
def persistOn (options : TCreateStoreOptions) : Bool :=
  match options.persist with
  | none => false
  | some p => p.enabled.getD false

/-- The devtools options record (empty when absent). -/
def getDev (options : TCreateStoreOptions) : DevtoolsOptions :=
  options.devtools.getD {}

/-- The persist options record (empty when absent). -/
def getPer (options : TCreateStoreOptions) : PersistOptions :=
  options.persist.getD {}

/-- A zustand state initializer with zero or more middleware wrappers
applied around it, as a syntax tree: `devtoolsMw` and `persistMw` record
the options object the respective middleware call receives. -/
inductive StateCreatorT where
  | base : Obj → StateCreatorT
  | devtoolsMw : StateCreatorT → DevtoolsOptions → StateCreatorT
  | persistMw : StateCreatorT → PersistOptions → StateCreatorT

/-- The devtools options actually passed when devtools is enabled: the JS
spread keeps all devtools options and then overrides `name` with the store
name (source: `devToolsMiddleware(config, { ...devtools, name })`). -/
def appliedDevOpts (name : String) (options : TCreateStoreOptions) : DevtoolsOptions :=
  { getDev options with name := some name }

/-- The persist options actually passed when persist is enabled: the JS
spread keeps the persist options and sets `name` to `persist.name ?? name`
(nullish coalescing against the store name). -/
def appliedPerOpts (name : String) (options : TCreateStoreOptions) : PersistOptions :=
  { getPer options with name := some ((getPer options).name.getD name) }

/-- The middleware list built by createStore: the devtools wrapper is pushed
first (when truthy-enabled), then the persist wrapper. -/
def middlewaresFor (name : String) (options : TCreateStoreOptions) :
    List (StateCreatorT → StateCreatorT) :=
  (if devtoolsOn options then
      [fun config => StateCreatorT.devtoolsMw config (appliedDevOpts name options)]
    else []) ++
  (if persistOn options then
      [fun config => StateCreatorT.persistMw config (appliedPerOpts name options)]
    else [])

/-- `middlewares.reduce((y, fn) => fn(y), createState)`: the left fold of
the middleware list over the raw state initializer. -/
def stateMutators (name : String) (options : TCreateStoreOptions)
    (createState : Obj) : StateCreatorT :=
  (middlewaresFor name options).foldl (fun y fn => fn y) (StateCreatorT.base createState)

/-- Whether a devtools wrapper occurs in the initializer tree. -/
def hasDevtoolsMw : StateCreatorT → Bool
  | .base _ => false
  | .devtoolsMw _ _ => true
  | .persistMw inner _ => hasDevtoolsMw inner

/-- Whether a persist wrapper occurs in the initializer tree. -/
def hasPersistMw : StateCreatorT → Bool
  | .base _ => false
  | .persistMw _ _ => true
  | .devtoolsMw inner _ => hasPersistMw inner

/-- The `name` label the (outermost) devtools wrapper receives, if any. -/
def devtoolsLabelOf : StateCreatorT → Option String
  | .base _ => none
  | .devtoolsMw _ o => o.name
  | .persistMw inner _ => devtoolsLabelOf inner

/-- The `name` label the (outermost) persist wrapper receives, if any. -/
def persistLabelOf : StateCreatorT → Option String
  | .base _ => none
  | .persistMw _ o => o.name
  | .devtoolsMw inner _ => persistLabelOf inner

/-- A runtime failure; only the TypeError raised by calling a property that
is not a function is needed here. -/
inductive JSErr where
  | typeError : String → JSErr
deriving DecidableEq

/-- The backing zustand store: current state and initial state. -/
structure ZStore where
  state : Obj
  initial : Obj

/-- The initial state produced by evaluating an initializer tree when every
middleware accepts its configuration (devtools is transparent; persist with
no stored data yields the wrapped initializer's state). -/
def initEval : StateCreatorT → Obj
  | .base s => s
  | .devtoolsMw inner _ => initEval inner
  | .persistMw inner _ => initEval inner

/-- `createStoreZustand` when the underlying store and middleware accept the
configuration: construction succeeds with the evaluated initial state.
createStore is parameterized over this engine so that middleware failures
can be modelled (the engine is the external collaborator of spec section 7). -/
def engineOk (sc : StateCreatorT) : Except JSErr ZStore :=
  Except.ok { state := initEval sc, initial := initEval sc }

/-- A dynamically typed JS argument as it matters to
generateStateTrackedHooksSelectors: either a store handle (which has a
getState method and is not itself callable) or a hook function (callable,
with no getState method). -/
inductive DynArg where
  | storeHandle : Obj → DynArg
  | hookFn : (Unit → Obj) → DynArg

/-- Whether `x.getState` is a callable property of the argument. -/
def hasGetState : DynArg → Bool
  | .storeHandle _ => true
  | .hookFn _ => false

/-- Whether the argument itself is callable. -/
def isCallable : DynArg → Bool
  | .storeHandle _ => false
  | .hookFn _ => true

/-- Evaluate `x.getState()`: raises a TypeError when the argument has no
getState method (for example a plain hook function). -/
def callGetState : DynArg → Except JSErr Obj
  | .storeHandle s => Except.ok s
  | .hookFn _ => Except.error (JSErr.typeError "store.getState is not a function")

/-- Evaluate `x()`: raises a TypeError when the argument is not callable
(for example a store handle object). -/
def callFn : DynArg → Except JSErr Obj
  | .hookFn f => Except.ok (f ())
  | .storeHandle _ => Except.error (JSErr.typeError "trackedStore is not a function")

/-- Embedded from
src/packages/zustand-x/src/utils/generateStateTrackedHooksSelectors.ts: it
enumerates `Object.keys((store as any).getState())` over its FIRST argument
and builds, for each key, a selector that calls its SECOND argument as a
function and projects the key. -/
def generateStateTrackedHooksSelectors (store trackedStore : DynArg) :
    Except JSErr (JSObj (Unit → Except JSErr JSVal)) :=
  match callGetState store with
  | Except.error e => Except.error e
  | Except.ok st =>
      Except.ok ((objKeys st).map (fun key =>
        (key, fun _ => (callFn trackedStore).map (fun o => jsIndex o key))))

/-- Modelled from the spec: `generateStateGetSelectors` is not under src/.
Spec section 4.2: for each key of the state snapshot, a zero-argument
function returning the current value of that key by reading the full state
and projecting the field.  A selector is modelled as a function of the
state at call time. -/
def generateStateGetSelectors (snapshot : Obj) : JSObj (Obj → JSVal) :=
  (objKeys snapshot).map (fun k => (k, fun s => jsIndex s k))

/-- Modelled from the spec: `generateStateActions` is not under src/.
Spec section 4.2: for each key, a one-argument function issuing a scoped
update in which the full state is re-derived from a shallow merge of the
previous state and the single-key patch (the diagnostic label derived from
the store name is observability metadata, not state semantics). -/
def generateStateActions (snapshot : Obj) (_name : String) :
    JSObj (JSVal → Obj → Obj) :=
  (objKeys snapshot).map (fun k => (k, fun v s => mergeRecord s [(k, v)]))

/-- Modelled from the spec: `generateStateHookSelectors` is not under src/.
Spec section 4.2: per key, a hook subscribing to just that field; re-render
scheduling belongs to the rendering framework (out of scope), so the model
keeps what a render reads, namely the field's value at the subscribed
state. -/
def generateStateHookSelectors (snapshot : Obj) : JSObj (Obj → JSVal) :=
  (objKeys snapshot).map (fun k => (k, fun s => jsIndex s k))

/-- Which implementation the extendSelectors / extendActions properties of
a composite API hold: `selfStub` is the placeholder installed by
apiInternal (`() => apiInternal`, returning the API itself and ignoring the
builder); `factory` is the pair installed by storeFactory. -/
inductive ExtendImpl where
  | selfStub : ExtendImpl
  | factory : ExtendImpl
deriving DecidableEq

/-- The composite API record assembled by createStore.  `objId` is the JS
object identity (an address), `storeId` the identity of the backing store
all accessors close over.  `getRec`, `setRec`, `useRec`, `useTrackedRec`
are the four generated accessor sub-records (the extra `state` entries of
the JS `get` / `set` records are the separate raw state read / write
references of the spec data model). -/
structure CompositeApi where
  objId : Nat
  name : String
  storeId : Nat
  getRec : JSObj (Obj → JSVal)
  setRec : JSObj (JSVal → Obj → Obj)
  useRec : JSObj (Obj → JSVal)
  useTrackedRec : JSObj (Unit → Except JSErr JSVal)
  extendImpl : ExtendImpl

/-- Embedded from the source `storeFactory`: spreads the given api into a
fresh object (new identity `n`; nothing else is copied, all sub-records and
the store reference are aliased) and overrides both extension properties
with the factory implementations. -/
def storeFactory (n : Nat) (api : CompositeApi) : CompositeApi :=
  { api with objId := n, extendImpl := ExtendImpl.factory }

/-- The two arguments createStore passes to
generateStateTrackedHooksSelectors, exactly as at the call site: first
`useTrackedStore` (the hook function returned by createTrackedSelector,
which reads the whole state), second `store` (the zustand store handle). -/
def trackedCallArgs (store : ZStore) : DynArg × DynArg :=
  (DynArg.hookFn (fun _ => store.state), DynArg.storeHandle store.state)

/-- Embedded from the source `createStore` (src/unnamed/part_000): composes
the enabled middleware, constructs the backing store through `engine`,
generates the accessor sub-records, assembles apiInternal and returns
`storeFactory apiInternal`.  Failures of any step propagate; the source has
no try/catch. -/
def createStoreWith (engine : StateCreatorT → Except JSErr ZStore)
    (name : String) (createState : Obj) (options : TCreateStoreOptions) :
    Except JSErr CompositeApi :=
  match engine (stateMutators name options createState) with
  | Except.error e => Except.error e
  | Except.ok store =>
      let getterSelectors := generateStateGetSelectors store.state
      let stateActions := generateStateActions store.state name
      let hookSelectors := generateStateHookSelectors store.state
      let args := trackedCallArgs store
      match generateStateTrackedHooksSelectors args.1 args.2 with
      | Except.error e => Except.error e
      | Except.ok trackedHooksSelectors =>
          Except.ok (storeFactory 1
            { objId := 0
              name := name
              storeId := 0
              getRec := getterSelectors
              setRec := stateActions
              useRec := hookSelectors
              useTrackedRec := trackedHooksSelectors
              extendImpl := ExtendImpl.selfStub })

/-- createStore run against the always-succeeding engine. -/
def createStoreRun (name : String) (createState : Obj)
    (options : TCreateStoreOptions) : Except JSErr CompositeApi :=
  createStoreWith engineOk name createState options

/-- A selector builder: receives the current getter sub-record and the full
api (the spec's `(state, currentGetters, fullApi)`; the state argument is
the state the produced selectors are later applied to) and returns the new
named selectors. -/
def SelBuilder : Type := JSObj (Obj → JSVal) → CompositeApi → JSObj (Obj → JSVal)

/-- An action builder, mirrors `SelBuilder` for the setter sub-record. -/
def ActBuilder : Type :=
  JSObj (JSVal → Obj → Obj) → CompositeApi → JSObj (JSVal → Obj → Obj)

/-- The mapping the builder returns when extendSelectors runs it on `api`. -/
def selBuilderOut (b : SelBuilder) (api : CompositeApi) : JSObj (Obj → JSVal) :=
  b api.getRec api

/-- The mapping the builder returns when extendActions runs it on `api`. -/
def actBuilderOut (b : ActBuilder) (api : CompositeApi) :
    JSObj (JSVal → Obj → Obj) :=
  b api.setRec api

/-- Modelled from the spec: the util `extendSelectors` is not under src/.
Spec section 4.3: applies the builder to the current accessor surface,
merges the returned mapping into the getter sub-record (new keys override
same-named keys) and constructs a fresh composite API (identity `n`) of
identical shape closing over the same underlying store; no state is
copied. -/
def extendSelectorsUtil (b : SelBuilder) (api : CompositeApi) (n : Nat) :
    CompositeApi :=
  { api with getRec := mergeRecord api.getRec (selBuilderOut b api), objId := n }

/-- Modelled from the spec: the util `extendActions` is not under src/;
mirrors `extendSelectorsUtil` on the setter sub-record. -/
def extendActionsUtil (b : ActBuilder) (api : CompositeApi) (n : Nat) :
    CompositeApi :=
  { api with setRec := mergeRecord api.setRec (actBuilderOut b api), objId := n }

/-- Calling `api.extendSelectors(builder)`: dispatches on the installed
implementation (source: apiInternal installs a stub returning apiInternal
itself; storeFactory overrides it with
`(builder) => storeFactory(extendSelectors(builder, api))`).  `n` is the
next free object identity; the factory path allocates identities `n` (the
util's fresh api) and `n + 1` (the storeFactory spread). -/
def callExtendSelectors (n : Nat) (api : CompositeApi) (b : SelBuilder) :
    CompositeApi × Nat :=
  match api.extendImpl with
  | ExtendImpl.selfStub => (api, n)
  | ExtendImpl.factory => (storeFactory (n + 1) (extendSelectorsUtil b api n), n + 2)

/-- Calling `api.extendActions(builder)`; mirrors `callExtendSelectors`. -/
def callExtendActions (n : Nat) (api : CompositeApi) (b : ActBuilder) :
    CompositeApi × Nat :=
  match api.extendImpl with
  | ExtendImpl.selfStub => (api, n)
  | ExtendImpl.factory => (storeFactory (n + 1) (extendActionsUtil b api n), n + 2)

/-- Read the state of the api's backing store out of the store heap:
extensions alias the same `storeId`, so state reads agree across them. -/
def readState (stores : List Obj) (api : CompositeApi) : Option Obj :=
  stores[api.storeId]?

/-- Call the accessor registered under `f` in a getter-style sub-record
against the state at call time. -/
def runSel (rec : JSObj (Obj → JSVal)) (f : String) (s : Obj) : JSVal :=
  match lookupRec rec f with
  | some sel => sel s
  | none => JSVal.undef

/-- Call the setter registered under `f` with value `v` against state `s`
(a missing setter leaves the state unchanged). -/
def runAction (rec : JSObj (JSVal → Obj → Obj)) (f : String) (v : JSVal)
    (s : Obj) : Obj :=
  match lookupRec rec f with
  | some act => act v s
  | none => s

/-- The api produced by the first step of a b1-then-b2 selector chain. -/
def chainSel1 (n : Nat) (api : CompositeApi) (b1 : SelBuilder) : CompositeApi :=
  (callExtendSelectors n api b1).1

/-- The api produced by the second step: b2 applied to the api b1 made. -/
def chainSel2 (n : Nat) (api : CompositeApi) (b1 b2 : SelBuilder) : CompositeApi :=
  (callExtendSelectors (callExtendSelectors n api b1).2 (chainSel1 n api b1) b2).1

/-- The api produced by the first step of a d1-then-d2 action chain. -/
def chainAct1 (n : Nat) (api : CompositeApi) (d1 : ActBuilder) : CompositeApi :=
  (callExtendActions n api d1).1

/-- The api produced by the second step: d2 applied to the api d1 made. -/
def chainAct2 (n : Nat) (api : CompositeApi) (d1 d2 : ActBuilder) : CompositeApi :=
  (callExtendActions (callExtendActions n api d1).2 (chainAct1 n api d1) d2).1

/-- The README example initial state:
`createStore('repo')` over `{ name: 'x', stars: 0 }`. -/
def repoInit : Obj := [("name", JSVal.str "x"), ("stars", JSVal.num 0)]

/-- A configuration with both middlewares truthy-enabled. -/
def c3opts : TCreateStoreOptions where
  devtools := some { enabled := some true }
  persist := some { enabled := some true }

/-- A configuration enabling persist under an explicit persist name. -/
def c10opts : TCreateStoreOptions where
  persist := some { enabled := some true, name := some "custom" }

/-- A concrete factory-made composite API (its sub-records are the ones
generated from the repo initial state) used to witness the extension
theorems. -/
def apiW : CompositeApi where
  objId := 0
  name := "repo"
  storeId := 0
  getRec := generateStateGetSelectors repoInit
  setRec := generateStateActions repoInit "repo"
  useRec := generateStateHookSelectors repoInit
  useTrackedRec := []
  extendImpl := ExtendImpl.factory

/-- A selector builder registering the README's derived validName. -/
def bValidName : SelBuilder := fun get _ =>
  [("validName", fun s => runSel get "name" s)]

/-- A selector builder whose selector uses the previously added validName. -/
def bTitle : SelBuilder := fun get _ =>
  [("title", fun s => runSel get "validName" s)]

/-- A selector builder re-registering the existing key stars. -/
def bShadow : SelBuilder := fun _ _ =>
  [("stars", fun _ => JSVal.num 99)]

/-- An action builder registering a derived reset action. -/
def dReset : ActBuilder := fun acts _ =>
  [("reset", fun _ s => runAction acts "stars" (JSVal.num 0) s)]

/-- An action builder re-registering the existing key stars. -/
def dShadow : ActBuilder := fun _ _ =>
  [("stars", fun _ s => s)]

@[simp] theorem objKeys_nil {α : Type} : objKeys ([] : JSObj α) = [] := rfl

@[simp] theorem objKeys_cons {α : Type} (p : String × α) (rest : JSObj α) :
    objKeys (p :: rest) = p.1 :: objKeys rest := rfl

theorem mergeRecord_cons {α : Type} (o : JSObj α) (p : String × α) (rest : JSObj α) :
    mergeRecord o (p :: rest) = mergeRecord (setField o p.1 p.2) rest := rfl

theorem lookupRec_setField_self {α : Type} (o : JSObj α) (k : String) (v : α) :
    lookupRec (setField o k v) k = some v := by
  induction o with
  | nil => simp [setField, lookupRec]
  | cons p rest ih =>
      by_cases h : p.1 = k
      · simp [setField, h, lookupRec]
      · simp [setField, h, lookupRec, ih]

theorem lookupRec_setField_other {α : Type} (o : JSObj α) (k g : String) (v : α)
    (hne : g ≠ k) : lookupRec (setField o k v) g = lookupRec o g := by
  have hkg : ¬ k = g := fun hh => hne hh.symm
  induction o with
  | nil => simp [setField, lookupRec, hkg]
  | cons p rest ih =>
      by_cases h : p.1 = k
      · have hpg : ¬ p.1 = g := by rw [h]; exact hkg
        simp [setField, h, lookupRec, hkg, hpg]
      · have hred : setField (p :: rest) k v = p :: setField rest k v := by
          simp [setField, h]
        by_cases hg : p.1 = g
        · rw [hred]
          simp [lookupRec, hg]
        · rw [hred]
          simp [lookupRec, hg, ih]

theorem self_mem_objKeys_setField {α : Type} (o : JSObj α) (k : String) (v : α) :
    k ∈ objKeys (setField o k v) := by
  induction o with
  | nil => simp [setField]
  | cons p rest ih =>
      by_cases h : p.1 = k
      · simp [setField, h]
      · simp only [setField, if_neg h, objKeys_cons, List.mem_cons]
        exact Or.inr ih

theorem mem_objKeys_setField {α : Type} (o : JSObj α) (k g : String) (v : α)
    (hg : g ∈ objKeys o) : g ∈ objKeys (setField o k v) := by
  induction o with
  | nil => simp at hg
  | cons p rest ih =>
      have hg1 : g = p.1 ∨ g ∈ objKeys rest := by simpa using hg
      by_cases h : p.1 = k
      · simp only [setField, if_pos h, objKeys_cons, List.mem_cons]
        rcases hg1 with hg1 | hg1
        · exact Or.inl (by rw [hg1, h])
        · exact Or.inr hg1
      · simp only [setField, if_neg h, objKeys_cons, List.mem_cons]
        rcases hg1 with hg1 | hg1
        · exact Or.inl hg1
        · exact Or.inr (ih hg1)

theorem mem_objKeys_mergeRecord_left {α : Type} (o patch : JSObj α) (g : String)
    (hg : g ∈ objKeys o) : g ∈ objKeys (mergeRecord o patch) := by
  induction patch generalizing o with
  | nil => simpa [mergeRecord] using hg
  | cons p rest ih =>
      rw [mergeRecord_cons]
      exact ih (setField o p.1 p.2) (mem_objKeys_setField o p.1 g p.2 hg)

theorem mem_objKeys_mergeRecord_right {α : Type} (o patch : JSObj α) (g : String)
    (hg : g ∈ objKeys patch) : g ∈ objKeys (mergeRecord o patch) := by
  induction patch generalizing o with
  | nil => simp at hg
  | cons p rest ih =>
      have hg1 : g = p.1 ∨ g ∈ objKeys rest := by simpa using hg
      rw [mergeRecord_cons]
      rcases hg1 with hg1 | hg1
      · refine mem_objKeys_mergeRecord_left (setField o p.1 p.2) rest g ?_
        rw [hg1]
        exact self_mem_objKeys_setField o p.1 p.2
      · exact ih (setField o p.1 p.2) hg1

theorem lookupRec_mergeRecord_not_mem {α : Type} (o patch : JSObj α) (g : String)
    (hg : g ∉ objKeys patch) : lookupRec (mergeRecord o patch) g = lookupRec o g := by
  induction patch generalizing o with
  | nil => rfl
  | cons p rest ih =>
      have hgp : g ≠ p.1 := by
        intro hh
        exact hg (by simp [hh])
      have hgrest : g ∉ objKeys rest := by
        intro hh
        exact hg (by simp [hh])
      rw [mergeRecord_cons, ih (setField o p.1 p.2) hgrest,
        lookupRec_setField_other o p.1 g p.2 hgp]

theorem lookupRec_mergeRecord_mem {α : Type} (o patch : JSObj α) (g : String)
    (hnd : (objKeys patch).Nodup) (hg : g ∈ objKeys patch) :
    lookupRec (mergeRecord o patch) g = lookupRec patch g := by
  induction patch generalizing o with
  | nil => simp at hg
  | cons p rest ih =>
      have hnd0 : p.1 ∉ objKeys rest ∧ (objKeys rest).Nodup :=
        List.nodup_cons.mp (by simpa using hnd)
      by_cases h : p.1 = g
      · have hnotin : g ∉ objKeys rest := by rw [← h]; exact hnd0.1
        have lhs : lookupRec (mergeRecord o (p :: rest)) g = some p.2 := by
          rw [mergeRecord_cons,
            lookupRec_mergeRecord_not_mem (setField o p.1 p.2) rest g hnotin, h,
            lookupRec_setField_self]
        have rhs : lookupRec (p :: rest) g = some p.2 := by
          simp [lookupRec, h]
        rw [lhs, rhs]
      · have hgrest : g ∈ objKeys rest := by
          have hg1 : g = p.1 ∨ g ∈ objKeys rest := by simpa using hg
          rcases hg1 with hg1 | hg1
          · exact absurd hg1.symm h
          · exact hg1
        have rhs : lookupRec (p :: rest) g = lookupRec rest g := by
          simp [lookupRec, h]
        rw [mergeRecord_cons, ih (setField o p.1 p.2) hnd0.2 hgrest, rhs]

/-- The current state object of a store (property values are `JSVal`). -/
theorem objKeys_keyMap {α : Type} (ks : List String) (F : String → α) :
    objKeys (ks.map (fun k => (k, F k))) = ks := by
  induction ks with
  | nil => rfl
  | cons k rest ih => simp [objKeys] at ih ⊢; exact ih

theorem lookupRec_keyMap {α : Type} (ks : List String) (F : String → α)
    (f : String) (hf : f ∈ ks) :
    lookupRec (ks.map (fun k => (k, F k))) f = some (F f) := by
  induction ks with
  | nil => simp at hf
  | cons k rest ih =>
      by_cases h : k = f
      · simp [lookupRec, h]
      · have hrest : f ∈ rest := by
          rcases List.mem_cons.mp hf with hh | hh
          · exact absurd hh.symm h
          · exact hh
        simp [lookupRec, h, ih hrest]

theorem mergeRecord_single {α : Type} (o : JSObj α) (k : String) (v : α) :
    mergeRecord o [(k, v)] = setField o k v := rfl

/-- Any failure of the backing store / middleware construction propagates
unmodified out of createStore: there is no catch, retry or wrapping. -/
theorem middleware_error_propagates
    (engine : StateCreatorT → Except JSErr ZStore) (name : String)
    (createState : Obj) (options : TCreateStoreOptions) (e : JSErr)
    (he : engine (stateMutators name options createState) = Except.error e) :
    createStoreWith engine name createState options = Except.error e := by
  simp [createStoreWith, he]

/-- Instance of `middleware_error_propagates` at a concrete failing engine. -/
theorem middleware_error_propagates_example :
    createStoreWith (fun _ => Except.error (JSErr.typeError "persist failure"))
      "repo" repoInit {} = Except.error (JSErr.typeError "persist failure") :=
  middleware_error_propagates _ "repo" repoInit {} _ rfl

/-- C3: when both devtools and persist are truthy-enabled, createStore
composes the middleware in a fixed order before constructing the backing
store: the devtools middleware wraps the raw state initializer innermost,
and the persist middleware wraps the devtools-wrapped initializer
outermost. -/
theorem c3_middleware_order (name : String) (options : TCreateStoreOptions)
    (createState : Obj) (hd : devtoolsOn options = true)
    (hp : persistOn options = true) :
    stateMutators name options createState =
      StateCreatorT.persistMw
        (StateCreatorT.devtoolsMw (StateCreatorT.base createState)
          (appliedDevOpts name options))
        (appliedPerOpts name options) := by
  simp [stateMutators, middlewaresFor, hd, hp]

/-- Witness for C3 at a concrete both-enabled configuration. -/
theorem c3_middleware_order_witness :
    devtoolsOn c3opts = true ∧ persistOn c3opts = true ∧
    stateMutators "repo" c3opts repoInit =
      StateCreatorT.persistMw
        (StateCreatorT.devtoolsMw (StateCreatorT.base repoInit)
          (appliedDevOpts "repo" c3opts))
        (appliedPerOpts "repo" c3opts) :=
  ⟨rfl, rfl, c3_middleware_order "repo" c3opts repoInit rfl rfl⟩

/-- C10 (amended): a middleware is applied exactly when its enabled flag is
truthy; the devtools middleware receives exactly the store name as its
label (overriding any devtools.name option), while the persist middleware
receives persist.name when provided and only defaults to the store name
otherwise. -/
theorem c10_middleware_flags_and_labels (name : String)
    (options : TCreateStoreOptions) (createState : Obj) :
    hasDevtoolsMw (stateMutators name options createState) = devtoolsOn options ∧
    hasPersistMw (stateMutators name options createState) = persistOn options ∧
    devtoolsLabelOf (stateMutators name options createState) =
      (if devtoolsOn options then some name else none) ∧
    persistLabelOf (stateMutators name options createState) =
      (if persistOn options then some ((getPer options).name.getD name)
        else none) := by
  by_cases hd : devtoolsOn options <;> by_cases hp : persistOn options <;>
    simp [stateMutators, middlewaresFor, hd, hp, hasDevtoolsMw, hasPersistMw,
      devtoolsLabelOf, persistLabelOf, appliedDevOpts, appliedPerOpts]

/-- C10 counterexample: with persist.name provided, the persist middleware's
label is that explicit name, which is not the store name and does not
depend on the store name at all — two stores created under different store
names receive the identical label "custom". -/
theorem c10_persist_label_counterexample :
    persistLabelOf (stateMutators "repo" c10opts repoInit) = some "custom" ∧
    persistLabelOf (stateMutators "other" c10opts repoInit) = some "custom" ∧
    ("custom" : String) ≠ "repo" ∧ ("custom" : String) ≠ "other" :=
  ⟨rfl, rfl, by decide, by decide⟩

/-- C4: for every field f in the key set of the state snapshot, the
sub-records generated from that snapshot contain a setter and a getter for
f, and calling the setter with v and then immediately the getter returns a
value structurally (deep-) equal to v, from any pre-state. -/
theorem c4_set_get_roundtrip (snapshot s : Obj) (name f : String) (v : JSVal)
    (hf : f ∈ objKeys snapshot) :
    f ∈ objKeys (generateStateActions snapshot name) ∧
    f ∈ objKeys (generateStateGetSelectors snapshot) ∧
    runSel (generateStateGetSelectors snapshot) f
      (runAction (generateStateActions snapshot name) f v s) = v := by
  refine ⟨?_, ?_, ?_⟩
  · rw [generateStateActions, objKeys_keyMap]; exact hf
  · rw [generateStateGetSelectors, objKeys_keyMap]; exact hf
  · rw [runAction, generateStateActions, lookupRec_keyMap _ _ f hf,
      runSel, generateStateGetSelectors, lookupRec_keyMap _ _ f hf]
    simp only [mergeRecord_single, jsIndex, lookupRec_setField_self, Option.getD_some]

/-- Witness for C4 at the README example: after set.stars(5) on
state with name x and stars 0, get.stars() returns 5. -/
theorem c4_set_get_roundtrip_witness :
    "stars" ∈ objKeys repoInit ∧
    runSel (generateStateGetSelectors repoInit) "stars"
      (runAction (generateStateActions repoInit "repo") "stars"
        (JSVal.num 5) repoInit) = JSVal.num 5 :=
  ⟨by decide,
    (c4_set_get_roundtrip repoInit repoInit "repo" "stars" (JSVal.num 5)
      (by decide)).2.2⟩

/-- C5: the generated setter for f re-derives the state as the shallow
merge of the previous state with the single-key patch, and for any other
field name g it leaves g's value unchanged (the getter for g reads the same
value before and after). -/
theorem c5_set_frame (snapshot s : Obj) (name f g : String) (v : JSVal)
    (hf : f ∈ objKeys snapshot) (hg : g ≠ f) :
    runAction (generateStateActions snapshot name) f v s =
      mergeRecord s [(f, v)] ∧
    runSel (generateStateGetSelectors snapshot) g
      (runAction (generateStateActions snapshot name) f v s) =
      runSel (generateStateGetSelectors snapshot) g s := by
  have hact : runAction (generateStateActions snapshot name) f v s =
      mergeRecord s [(f, v)] := by
    rw [runAction, generateStateActions, lookupRec_keyMap _ _ f hf]
  refine ⟨hact, ?_⟩
  rw [hact, mergeRecord_single, runSel, runSel]
  cases hlk : lookupRec (generateStateGetSelectors snapshot) g with
  | none => rfl
  | some sel =>
      have hsel : ∃ k, k ∈ objKeys snapshot ∧ k = g ∧ sel = fun s => jsIndex s k := by
        revert hlk
        rw [generateStateGetSelectors]
        induction objKeys snapshot with
        | nil => intro hlk; simp [lookupRec] at hlk
        | cons k rest ih =>
            intro hlk
            by_cases hk : k = g
            · refine ⟨g, by simp [hk], rfl, ?_⟩
              simp [lookupRec, hk] at hlk
              exact hlk.symm
            · simp only [List.map_cons, lookupRec, hk, if_neg hk] at hlk
              rcases ih hlk with ⟨k1, hk1, hk1g, hk1sel⟩
              exact ⟨k1, by simp [hk1], hk1g, hk1sel⟩
      rcases hsel with ⟨k, _, hkg, hksel⟩
      subst hkg
      rw [hksel]
      simp only [jsIndex, lookupRec_setField_other s f k v hg]

/-- Witness for C5 at the README example: after set.stars(5), get.name()
still returns the string x. -/
theorem c5_set_frame_witness :
    "stars" ∈ objKeys repoInit ∧ ("name" : String) ≠ "stars" ∧
    runSel (generateStateGetSelectors repoInit) "name"
      (runAction (generateStateActions repoInit "repo") "stars"
        (JSVal.num 5) repoInit) =
      runSel (generateStateGetSelectors repoInit) "name" repoInit :=
  ⟨by decide, by decide,
    (c5_set_frame repoInit repoInit "repo" "stars" "name" (JSVal.num 5)
      (by decide) (by decide)).2⟩

/-- C1 (code evaluation): the getter, setter and hook sub-records generated
from the initial snapshot do have exactly the key set of the initial state,
computed once from its Object.keys; but createStore itself never returns
the composite API, because generating the tracked-hook sub-record raises a
TypeError for every initial state (getState is read off the tracked hook
function).  No accessor surface, hence none with key set K, is ever
produced by createStore. -/
theorem c1_keysets_and_creation_failure (name : String) (createState : Obj) :
    objKeys (generateStateGetSelectors createState) = objKeys createState ∧
    objKeys (generateStateActions createState name) = objKeys createState ∧
    objKeys (generateStateHookSelectors createState) = objKeys createState ∧
    createStoreRun name createState {} =
      Except.error (JSErr.typeError "store.getState is not a function") := by
  refine ⟨?_, ?_, ?_, rfl⟩
  · rw [generateStateGetSelectors, objKeys_keyMap]
  · rw [generateStateActions, objKeys_keyMap]
  · rw [generateStateHookSelectors, objKeys_keyMap]

/-- C2 (code evaluation): at the call site inside createStore, the first
argument handed to generateStateTrackedHooksSelectors is the tracked hook
function, which has NO getState method, and the second argument is the
store handle, which is NOT callable; generateStateTrackedHooksSelectors
therefore raises a TypeError instead of completing, and createStore fails
already on the README's repo store. -/
theorem c2_tracked_generation_raises :
    hasGetState (trackedCallArgs { state := repoInit, initial := repoInit }).1
      = false ∧
    isCallable (trackedCallArgs { state := repoInit, initial := repoInit }).2
      = false ∧
    generateStateTrackedHooksSelectors
        (trackedCallArgs { state := repoInit, initial := repoInit }).1
        (trackedCallArgs { state := repoInit, initial := repoInit }).2 =
      Except.error (JSErr.typeError "store.getState is not a function") ∧
    createStoreRun "repo" repoInit {} =
      Except.error (JSErr.typeError "store.getState is not a function") :=
  ⟨rfl, rfl, rfl, rfl⟩

/-- C9 (code evaluation): the underlying store construction for the repo
store succeeds (the always-succeeding engine accepts the initializer), yet
createStore still throws — a TypeError of its own raised during
tracked-hook accessor generation, not a failure of the underlying store or
middleware validation.  (That failures of the engine itself propagate
unmodified is `middleware_error_propagates` above.) -/
theorem c9_construction_fails_despite_engine_ok :
    (engineOk (stateMutators "repo" {} repoInit)).isOk = true ∧
    createStoreRun "repo" repoInit {} =
      Except.error (JSErr.typeError "store.getState is not a function") :=
  ⟨rfl, rfl⟩

/-- C6: extending a factory-made composite API with extendSelectors or with
extendActions returns a fresh object — an identity distinct from the input
api — of identical shape (name and the untouched sub-records preserved),
itself carrying the factory implementations of both extension methods so
that chaining can continue indefinitely, and whose store handle is the
same as the input api's: no state is copied, and state reads through the
old and the new api agree on every store heap. -/
theorem c6_extend_fresh_chained_alias (n : Nat) (api : CompositeApi)
    (b : SelBuilder) (d : ActBuilder) (stores : List Obj)
    (hfresh : api.objId < n) (himpl : api.extendImpl = ExtendImpl.factory) :
    ((callExtendSelectors n api b).1.objId ≠ api.objId ∧
      (callExtendSelectors n api b).1.extendImpl = ExtendImpl.factory ∧
      (callExtendSelectors n api b).1.name = api.name ∧
      (callExtendSelectors n api b).1.storeId = api.storeId ∧
      (callExtendSelectors n api b).1.setRec = api.setRec ∧
      (callExtendSelectors n api b).1.useRec = api.useRec ∧
      (callExtendSelectors n api b).1.useTrackedRec = api.useTrackedRec ∧
      readState stores (callExtendSelectors n api b).1 = readState stores api ∧
      (callExtendSelectors n api b).1.objId < (callExtendSelectors n api b).2) ∧
    ((callExtendActions n api d).1.objId ≠ api.objId ∧
      (callExtendActions n api d).1.extendImpl = ExtendImpl.factory ∧
      (callExtendActions n api d).1.name = api.name ∧
      (callExtendActions n api d).1.storeId = api.storeId ∧
      (callExtendActions n api d).1.getRec = api.getRec ∧
      (callExtendActions n api d).1.useRec = api.useRec ∧
      (callExtendActions n api d).1.useTrackedRec = api.useTrackedRec ∧
      readState stores (callExtendActions n api d).1 = readState stores api ∧
      (callExtendActions n api d).1.objId < (callExtendActions n api d).2) := by
  have hs : callExtendSelectors n api b =
      (storeFactory (n + 1) (extendSelectorsUtil b api n), n + 2) := by
    simp [callExtendSelectors, himpl]
  have ha : callExtendActions n api d =
      (storeFactory (n + 1) (extendActionsUtil d api n), n + 2) := by
    simp [callExtendActions, himpl]
  constructor
  · rw [hs]
    exact ⟨by show n + 1 ≠ api.objId; omega, rfl, rfl, rfl, rfl, rfl, rfl, rfl,
      by show n + 1 < n + 2; omega⟩
  · rw [ha]
    exact ⟨by show n + 1 ≠ api.objId; omega, rfl, rfl, rfl, rfl, rfl, rfl, rfl,
      by show n + 1 < n + 2; omega⟩

/-- Witness for C6 at the concrete repo api. -/
theorem c6_extend_fresh_chained_alias_witness :
    apiW.objId < 1 ∧ apiW.extendImpl = ExtendImpl.factory ∧
    (callExtendSelectors 1 apiW bValidName).1.objId ≠ apiW.objId ∧
    (callExtendSelectors 1 apiW bValidName).1.extendImpl = ExtendImpl.factory ∧
    (callExtendSelectors 1 apiW bValidName).1.storeId = apiW.storeId ∧
    (callExtendActions 1 apiW dReset).1.objId ≠ apiW.objId ∧
    readState [repoInit] (callExtendSelectors 1 apiW bValidName).1 =
      readState [repoInit] apiW := by
  obtain ⟨⟨h1, h2, h3, h4, h5, h6, h7, h8, h9⟩, g1, g2, g3, g4, g5, g6, g7, g8, g9⟩ :=
    c6_extend_fresh_chained_alias 1 apiW bValidName dReset [repoInit]
      (by decide) rfl
  exact ⟨by decide, rfl, h1, h2, h4, g1, h8⟩

/-- C7: extension layering is additive for extendSelectors and for
extendActions: the second builder is applied to the full accessor surface
the first produced (so it sees all of B1's additions), every key of the
original surface and every key B1 added is still present after B2's
registration, and B2 neither removes nor mutates any accessor it does not
itself name. -/
theorem c7_extension_additive (n : Nat) (api : CompositeApi)
    (b1 b2 : SelBuilder) (d1 d2 : ActBuilder)
    (himpl : api.extendImpl = ExtendImpl.factory) :
    ((chainSel2 n api b1 b2).getRec =
        mergeRecord (chainSel1 n api b1).getRec
          (selBuilderOut b2 (chainSel1 n api b1)) ∧
      (chainSel1 n api b1).getRec =
        mergeRecord api.getRec (selBuilderOut b1 api) ∧
      (∀ k, k ∈ objKeys (selBuilderOut b1 api) →
        k ∈ objKeys (chainSel1 n api b1).getRec) ∧
      (∀ k, k ∈ objKeys (selBuilderOut b1 api) →
        k ∈ objKeys (chainSel2 n api b1 b2).getRec) ∧
      (∀ k, k ∈ objKeys api.getRec →
        k ∈ objKeys (chainSel2 n api b1 b2).getRec) ∧
      (∀ k, k ∉ objKeys (selBuilderOut b2 (chainSel1 n api b1)) →
        lookupRec (chainSel2 n api b1 b2).getRec k =
          lookupRec (chainSel1 n api b1).getRec k)) ∧
    ((chainAct2 n api d1 d2).setRec =
        mergeRecord (chainAct1 n api d1).setRec
          (actBuilderOut d2 (chainAct1 n api d1)) ∧
      (chainAct1 n api d1).setRec =
        mergeRecord api.setRec (actBuilderOut d1 api) ∧
      (∀ k, k ∈ objKeys (actBuilderOut d1 api) →
        k ∈ objKeys (chainAct1 n api d1).setRec) ∧
      (∀ k, k ∈ objKeys (actBuilderOut d1 api) →
        k ∈ objKeys (chainAct2 n api d1 d2).setRec) ∧
      (∀ k, k ∈ objKeys api.setRec →
        k ∈ objKeys (chainAct2 n api d1 d2).setRec) ∧
      (∀ k, k ∉ objKeys (actBuilderOut d2 (chainAct1 n api d1)) →
        lookupRec (chainAct2 n api d1 d2).setRec k =
          lookupRec (chainAct1 n api d1).setRec k)) := by
  have selStep : ∀ (m : Nat) (a : CompositeApi) (b : SelBuilder),
      a.extendImpl = ExtendImpl.factory →
      (callExtendSelectors m a b).1.getRec =
        mergeRecord a.getRec (selBuilderOut b a) ∧
      (callExtendSelectors m a b).1.extendImpl = ExtendImpl.factory := by
    intro m a b hi
    simp [callExtendSelectors, hi, storeFactory, extendSelectorsUtil]
  have actStep : ∀ (m : Nat) (a : CompositeApi) (d : ActBuilder),
      a.extendImpl = ExtendImpl.factory →
      (callExtendActions m a d).1.setRec =
        mergeRecord a.setRec (actBuilderOut d a) ∧
      (callExtendActions m a d).1.extendImpl = ExtendImpl.factory := by
    intro m a d hi
    simp [callExtendActions, hi, storeFactory, extendActionsUtil]
  have h1g : (chainSel1 n api b1).getRec =
      mergeRecord api.getRec (selBuilderOut b1 api) := (selStep n api b1 himpl).1
  have h1i : (chainSel1 n api b1).extendImpl = ExtendImpl.factory :=
    (selStep n api b1 himpl).2
  have h2g : (chainSel2 n api b1 b2).getRec =
      mergeRecord (chainSel1 n api b1).getRec
        (selBuilderOut b2 (chainSel1 n api b1)) :=
    (selStep (callExtendSelectors n api b1).2 (chainSel1 n api b1) b2 h1i).1
  have a1g : (chainAct1 n api d1).setRec =
      mergeRecord api.setRec (actBuilderOut d1 api) := (actStep n api d1 himpl).1
  have a1i : (chainAct1 n api d1).extendImpl = ExtendImpl.factory :=
    (actStep n api d1 himpl).2
  have a2g : (chainAct2 n api d1 d2).setRec =
      mergeRecord (chainAct1 n api d1).setRec
        (actBuilderOut d2 (chainAct1 n api d1)) :=
    (actStep (callExtendActions n api d1).2 (chainAct1 n api d1) d2 a1i).1
  constructor
  · refine ⟨h2g, h1g, ?_, ?_, ?_, ?_⟩
    · intro k hk
      rw [h1g]
      exact mem_objKeys_mergeRecord_right _ _ k hk
    · intro k hk
      rw [h2g]
      refine mem_objKeys_mergeRecord_left _ _ k ?_
      rw [h1g]
      exact mem_objKeys_mergeRecord_right _ _ k hk
    · intro k hk
      rw [h2g]
      refine mem_objKeys_mergeRecord_left _ _ k ?_
      rw [h1g]
      exact mem_objKeys_mergeRecord_left _ _ k hk
    · intro k hk
      rw [h2g]
      exact lookupRec_mergeRecord_not_mem _ _ k hk
  · refine ⟨a2g, a1g, ?_, ?_, ?_, ?_⟩
    · intro k hk
      rw [a1g]
      exact mem_objKeys_mergeRecord_right _ _ k hk
    · intro k hk
      rw [a2g]
      refine mem_objKeys_mergeRecord_left _ _ k ?_
      rw [a1g]
      exact mem_objKeys_mergeRecord_right _ _ k hk
    · intro k hk
      rw [a2g]
      refine mem_objKeys_mergeRecord_left _ _ k ?_
      rw [a1g]
      exact mem_objKeys_mergeRecord_left _ _ k hk
    · intro k hk
      rw [a2g]
      exact lookupRec_mergeRecord_not_mem _ _ k hk

/-- Witness for C7: the README chain (validName, then a title selector that
reads validName) on the concrete repo api. -/
theorem c7_extension_additive_witness :
    apiW.extendImpl = ExtendImpl.factory ∧
    "validName" ∈ objKeys (chainSel1 1 apiW bValidName).getRec ∧
    "validName" ∈ objKeys (chainSel2 1 apiW bValidName bTitle).getRec ∧
    "name" ∈ objKeys (chainSel2 1 apiW bValidName bTitle).getRec ∧
    lookupRec (chainSel2 1 apiW bValidName bTitle).getRec "validName" =
      lookupRec (chainSel1 1 apiW bValidName).getRec "validName" ∧
    "reset" ∈ objKeys (chainAct2 1 apiW dReset dShadow).setRec := by
  obtain ⟨⟨s1, s2, s3, s4, s5, s6⟩, a1, a2, a3, a4, a5, a6⟩ :=
    c7_extension_additive 1 apiW bValidName bTitle dReset dShadow rfl
  exact ⟨rfl, s3 "validName" (by decide), s4 "validName" (by decide),
    s5 "name" (by decide), s6 "validName" (by decide),
    a4 "reset" (by decide)⟩

/-- C8: re-registering a name already present in the corresponding
sub-record via extendSelectors or extendActions keeps the name present and
resolves it to the builder's newly registered accessor (later registration
wins); the merge is a total operation with no error path. -/
theorem c8_reregistration_wins (n : Nat) (api : CompositeApi)
    (b : SelBuilder) (d : ActBuilder) (k j : String)
    (himpl : api.extendImpl = ExtendImpl.factory)
    (hkold : k ∈ objKeys api.getRec)
    (hknew : k ∈ objKeys (selBuilderOut b api))
    (hknd : (objKeys (selBuilderOut b api)).Nodup)
    (hjold : j ∈ objKeys api.setRec)
    (hjnew : j ∈ objKeys (actBuilderOut d api))
    (hjnd : (objKeys (actBuilderOut d api)).Nodup) :
    k ∈ objKeys (callExtendSelectors n api b).1.getRec ∧
    lookupRec (callExtendSelectors n api b).1.getRec k =
      lookupRec (selBuilderOut b api) k ∧
    j ∈ objKeys (callExtendActions n api d).1.setRec ∧
    lookupRec (callExtendActions n api d).1.setRec j =
      lookupRec (actBuilderOut d api) j := by
  have hg : (callExtendSelectors n api b).1.getRec =
      mergeRecord api.getRec (selBuilderOut b api) := by
    simp [callExtendSelectors, himpl, storeFactory, extendSelectorsUtil]
  have hset : (callExtendActions n api d).1.setRec =
      mergeRecord api.setRec (actBuilderOut d api) := by
    simp [callExtendActions, himpl, storeFactory, extendActionsUtil]
  refine ⟨?_, ?_, ?_, ?_⟩
  · rw [hg]
    exact mem_objKeys_mergeRecord_left _ _ k hkold
  · rw [hg]
    exact lookupRec_mergeRecord_mem _ _ k hknd hknew
  · rw [hset]
    exact mem_objKeys_mergeRecord_left _ _ j hjold
  · rw [hset]
    exact lookupRec_mergeRecord_mem _ _ j hjnd hjnew

/-- Witness for C8: shadowing the existing key stars in both the getter and
the setter sub-record of the concrete repo api. -/
theorem c8_reregistration_wins_witness :
    "stars" ∈ objKeys apiW.getRec ∧
    lookupRec (callExtendSelectors 1 apiW bShadow).1.getRec "stars" =
      lookupRec (selBuilderOut bShadow apiW) "stars" ∧
    lookupRec (callExtendActions 1 apiW dShadow).1.setRec "stars" =
      lookupRec (actBuilderOut dShadow apiW) "stars" := by
  obtain ⟨w1, w2, w3, w4⟩ :=
    c8_reregistration_wins 1 apiW bShadow dShadow "stars" "stars" rfl
      (by decide) (by decide) (by decide) (by decide) (by decide) (by decide)
  exact ⟨by decide, w2, w4⟩

end ZustandX
